import Mathlib

/-
Verification of the sensei-eval evaluation core: a shallow embedding of the
criterion factory (src/createCriterion.ts), the evaluation runner
(src/runner.ts) and the baseline recorder/comparator (src/baseline.ts), with
theorems settling the frozen claims about aggregation, pass/fail semantics
and regression classification.

Numbers are modelled as rationals (the TypeScript sources use IEEE doubles;
the spec asks for the algebraic identities "within floating-point tolerance",
so the exact-arithmetic idealization is the intended meaning).  Wall-clock
timestamps (`evaluatedAt`, `generatedAt`) are produced by `new Date()` and
carry no logic; they are omitted from the embedding.  JS `Map`s built from
key/value pair lists are modelled by last-binding-wins lookup, JS `Set`s and
object key enumeration by first-occurrence-order deduplication, and the
(required to be stable) JS `Array.prototype.sort` by a stable insertion sort.
-/

namespace SenseiEval

/-! ## Data model (src/types.ts) -/

/-- `EvalInput` from types.ts: what the consumer provides for evaluation. -/
structure EvalInput where
  content : String
  contentType : String
  topic : Option String := none
  difficulty : Option String := none
  previousContent : Option (List String) := none

/-- The wildcard-or-list `contentTypes` field from types.ts. -/
inductive ContentTypes
  | wildcard
  | tags (tags : List String)

/-- The `method` enum (deterministic | llm_judge) from types.ts. -/
inductive EvalMethod
  | deterministic
  | llm_judge
deriving BEq, DecidableEq, Repr

/-- `EvalScore` from types.ts: score for a single criterion. -/
structure EvalScore where
  criterion : String
  score : ℚ
  rawScore : ℚ
  maxScore : ℚ
  passed : Bool
  reasoning : String
  suggestions : Option (List String) := none
deriving DecidableEq, Repr

/-- One element of `EvalFeedback.failedCriteria` from types.ts. -/
structure FailedCriterion where
  criterion : String
  reasoning : String
  suggestions : List String
deriving DecidableEq, Repr

/-- `EvalFeedback` from types.ts. -/
structure EvalFeedback where
  failedCriteria : List FailedCriterion
  strengths : List String
  suggestions : List String
deriving DecidableEq, Repr

/-- `EvalResult` from types.ts (the impure `evaluatedAt` timestamp omitted). -/
structure EvalResult where
  overallScore : ℚ
  passed : Bool
  scores : List EvalScore
  feedback : EvalFeedback
  contentType : String
deriving DecidableEq, Repr

/-- One point of a `JudgeRubric.scale` from types.ts. -/
structure RubricScalePoint where
  score : ℚ
  label : String
  description : String

/-- `JudgeRubric` from types.ts. -/
structure JudgeRubric where
  criterion : String
  description : String
  scale : List RubricScalePoint

/-- `Rubric = JudgeRubric | string` from types.ts. -/
inductive Rubric
  | structured (r : JudgeRubric)
  | plain (s : String)

/-- What a judge call resolves to, from the `Judge` interface in types.ts. -/
structure JudgeOutcome where
  score : ℚ
  reasoning : String
  suggestions : Option (List String) := none

/-- `Judge` from types.ts: the opaque LLM-judge collaborator. -/
structure Judge where
  score : String → Rubric → Option String → JudgeOutcome

/-- `EvalCriterion` from types.ts.  The async `evaluate(input, judge?)` is
embedded as a total function of the input and the optional judge. -/
structure EvalCriterion where
  name : String
  description : String
  contentTypes : ContentTypes
  method : EvalMethod
  threshold : ℚ
  weight : ℚ
  optional : Bool := false
  evaluate : EvalInput → Option Judge → EvalScore

/-! ## Criterion factory (src/createCriterion.ts) -/

/-- `AssertionResult` from src/assertions.ts. -/
structure AssertionResult where
  passed : Bool
  score : ℚ
  reasoning : String
deriving DecidableEq, Repr

/-- `Transform = (content: string) => string` from src/transforms.ts. -/
abbrev Transform := String → String

/-- `Assertion = (content: string) => AssertionResult` from src/assertions.ts. -/
abbrev Assertion := String → AssertionResult

/-- The optional `mode` field (all | any) from createCriterion.ts. -/
inductive AggMode
  | all
  | any
deriving BEq, DecidableEq, Repr

/-- `CriterionConfig` from createCriterion.ts, with the defaults of the source. -/
structure CriterionConfig where
  name : String
  description : String
  contentTypes : ContentTypes
  threshold : ℚ := 1
  weight : ℚ := 1
  optional : Bool := false
  transforms : List Transform := []
  assertions : List Assertion
  mode : AggMode := AggMode.all

/-- The transform loop in createCriterion.ts: `for (const transform of
transforms) content = transform(content)`. -/
def applyTransforms (transforms : List Transform) (content : String) : String :=
  transforms.foldl (fun c t => t c) content

/-- The assertion results computed inside the factory-built `evaluate`. -/
def assertionResults (config : CriterionConfig) (input : EvalInput) : List AssertionResult :=
  config.assertions.map (fun a => a (applyTransforms config.transforms input.content))

/-- The assertion scores the factory-built `evaluate` combines. -/
def assertionScores (config : CriterionConfig) (input : EvalInput) : List ℚ :=
  (assertionResults config input).map (fun r => r.score)

/-- `Math.min(...xs)` over a nonempty list given as head and tail. -/
def spreadMin (x : ℚ) (xs : List ℚ) : ℚ :=
  xs.foldl min x

/-- `Math.max(...xs)` over a nonempty list given as head and tail. -/
def spreadMax (x : ℚ) (xs : List ℚ) : ℚ :=
  xs.foldl max x

/-- The score-combination branch of the factory-built `evaluate`:
`results.length === 0 ? 1 : mode === any ? Math.max(...) : Math.min(...)`. -/
def combineScores (mode : AggMode) : List ℚ → ℚ
  | [] => 1
  | s :: rest =>
    match mode with
    | AggMode.any => spreadMax s rest
    | AggMode.all => spreadMin s rest

/-- `createCriterion` from createCriterion.ts: builds a deterministic
criterion whose `evaluate` applies the transforms, runs every assertion, and
combines scores by min (`mode=all`) or max (`mode=any`), with the empty
assertion list scoring 1. -/
def createCriterion (config : CriterionConfig) : EvalCriterion :=
  { name := config.name
    description := config.description
    contentTypes := config.contentTypes
    method := EvalMethod.deterministic
    threshold := config.threshold
    weight := config.weight
    optional := config.optional
    evaluate := fun input _ =>
      let results := assertionResults config input
      let score := combineScores config.mode (results.map (fun r => r.score))
      let passed := decide (config.threshold ≤ score)
      let reasoning :=
        match results with
        | [] => "No assertions to check"
        | _ => String.intercalate "; " (results.map (fun r => r.reasoning))
      { criterion := config.name
        score := score
        rawScore := score
        maxScore := 1
        passed := passed
        reasoning := reasoning
        suggestions := some ((results.filter (fun r => !r.passed)).map (fun r => r.reasoning)) } }

/-! ## Evaluation runner (src/runner.ts) -/

/-- The construction-time state of `EvalRunner`: the criterion catalog and the
optional judge. -/
structure EvalRunner where
  criteria : List EvalCriterion
  judge : Option Judge := none

/-- `EvalRunner.getCriteria`: criteria whose `contentTypes` is the wildcard
or contains the given content type. -/
def EvalRunner.getCriteria (r : EvalRunner) (contentType : String) : List EvalCriterion :=
  r.criteria.filter (fun c =>
    match c.contentTypes with
    | ContentTypes.wildcard => true
    | ContentTypes.tags ts => ts.contains contentType)

/-- JS `Map.get` on a map built from a list of key/value pairs: the last
binding for a key wins. -/
def jsMapGet (entries : List (String × ℚ)) (key : String) : Option ℚ :=
  (entries.reverse.find? (fun e => e.fst == key)).map (fun e => e.snd)

/-- `weightMap.get(score.criterion) ?? 1` from `buildResult`, with the weight
map built from the applicable criteria of the call. -/
def weightFor (applicable : List EvalCriterion) (criterion : String) : ℚ :=
  (jsMapGet (applicable.map (fun c => (c.name, c.weight))) criterion).getD 1

/-- The `totalWeight` accumulator of `buildResult`. -/
def totalWeightOf (applicable : List EvalCriterion) (scores : List EvalScore) : ℚ :=
  (scores.map (fun s => weightFor applicable s.criterion)).sum

/-- The `weightedSum` accumulator of `buildResult`. -/
def weightedSumOf (applicable : List EvalCriterion) (scores : List EvalScore) : ℚ :=
  (scores.map (fun s => s.score * weightFor applicable s.criterion)).sum

/-- The `optionalNames` set of `buildResult`: names of the applicable
criteria marked optional. -/
def optionalNamesOf (applicable : List EvalCriterion) : List String :=
  (applicable.filter (fun c => c.optional)).map (fun c => c.name)

/-- Stable insertion of `a` into an already-sorted list: `a` goes before the
first element that must come strictly after it, and after the elements it
ties with — the placement a stable sort gives. -/
def stableInsert {α : Type} (le : α → α → Bool) (a : α) : List α → List α
  | [] => [a]
  | x :: xs => if le a x && !(le x a) then a :: x :: xs else x :: stableInsert le a xs

/-- Stable sort by `le`, modelling JS `Array.prototype.sort` (required by the
language standard to be stable) with a consistent comparator. -/
def stableSort {α : Type} (le : α → α → Bool) (l : List α) : List α :=
  l.foldl (fun acc a => stableInsert le a acc) []

/-- `EvalRunner.buildFeedback`: failed criteria, strengths (score ≥ 0.75),
and suggestions of failed-or-low scores ordered by descending weight. -/
def buildFeedback (scores : List EvalScore) (applicable : List EvalCriterion) : EvalFeedback :=
  let failedCriteria := (scores.filter (fun s => !s.passed)).map (fun s =>
    ({ criterion := s.criterion
       reasoning := s.reasoning
       suggestions := s.suggestions.getD [] } : FailedCriterion))
  let strengths := (scores.filter (fun s => decide ((0.75 : ℚ) ≤ s.score))).map (fun s => s.reasoning)
  let lowScoring := stableSort
    (fun a b => decide (weightFor applicable b.criterion ≤ weightFor applicable a.criterion))
    (scores.filter (fun s => !s.passed || decide (s.score < (0.75 : ℚ))))
  let suggestions := (lowScoring.map (fun s => s.suggestions.getD [])).flatten
  { failedCriteria := failedCriteria, strengths := strengths, suggestions := suggestions }

/-- `EvalRunner.buildResult`: the weighted mean over the produced scores with
weights looked up (default 1) from the applicable criteria, 0 when the total
weight is not positive; `passed` from the non-optional scores. -/
def buildResult (scores : List EvalScore) (applicable : List EvalCriterion)
    (contentType : String) : EvalResult :=
  let totalWeight := totalWeightOf applicable scores
  let weightedSum := weightedSumOf applicable scores
  let overallScore := if 0 < totalWeight then weightedSum / totalWeight else 0
  let optionalNames := optionalNamesOf applicable
  let passed := (scores.filter (fun s => !(optionalNames.contains s.criterion))).all (fun s => s.passed)
  { overallScore := overallScore
    passed := passed
    scores := scores
    feedback := buildFeedback scores applicable
    contentType := contentType }

/-- The `llm.map` body of `EvalRunner.evaluate` with its in-loop judge check:
score the judged criteria in order, failing at the first one when no judge is
configured, with the error message of the source. -/
def runJudged (judge : Option Judge) (input : EvalInput) :
    List EvalCriterion → Except String (List EvalScore)
  | [] => Except.ok []
  | c :: rest =>
    match judge with
    | none =>
      Except.error ("LLM judge required for criterion \"" ++ c.name ++ "\" but none provided")
    | some j =>
      match runJudged judge input rest with
      | Except.ok scores => Except.ok (c.evaluate input (some j) :: scores)
      | Except.error e => Except.error e

/-- `EvalRunner.evaluate`: full evaluation — deterministic criteria (no
judge), then judged criteria (failing if no judge is configured),
deterministic-then-judged scores aggregated by `buildResult`. -/
def EvalRunner.evaluate (r : EvalRunner) (input : EvalInput) : Except String EvalResult :=
  let applicable := r.getCriteria input.contentType
  let deterministic := applicable.filter (fun c => c.method == EvalMethod.deterministic)
  let llm := applicable.filter (fun c => c.method == EvalMethod.llm_judge)
  let detScores := deterministic.map (fun c => c.evaluate input none)
  match runJudged r.judge input llm with
  | Except.error e => Except.error e
  | Except.ok llmScores =>
    Except.ok (buildResult (detScores ++ llmScores) applicable input.contentType)

/-- `EvalRunner.quickCheck`: deterministic criteria only, no judge ever. -/
def EvalRunner.quickCheck (r : EvalRunner) (input : EvalInput) : EvalResult :=
  let applicable := (r.getCriteria input.contentType).filter
    (fun c => c.method == EvalMethod.deterministic)
  buildResult (applicable.map (fun c => c.evaluate input none)) applicable input.contentType

/-! ## Baseline recorder and comparator (src/baseline.ts) -/

/-- `BaselineEntry` from types.ts; the `scores: Record<string, number>` is
modelled as the list of assignments made to it (`evaluatedAt` omitted). -/
structure BaselineEntry where
  name : String
  contentType : String
  overallScore : ℚ
  scores : List (String × ℚ)
deriving DecidableEq, Repr

/-- The `mode` enum (full | quick) from types.ts. -/
inductive BaselineMode
  | full
  | quick
deriving BEq, DecidableEq, Repr

/-- `BaselineFile` from types.ts (`generatedAt` timestamp omitted). -/
structure BaselineFile where
  version : Nat
  mode : BaselineMode
  entries : List BaselineEntry
deriving DecidableEq, Repr

/-- `toBaselineEntry` from baseline.ts: flatten the scores of a result into the
criterion-name→score record. -/
def toBaselineEntry (name : String) (result : EvalResult) : BaselineEntry :=
  { name := name
    contentType := result.contentType
    overallScore := result.overallScore
    scores := result.scores.map (fun s => (s.criterion, s.score)) }

/-- `createBaseline` from baseline.ts. -/
def createBaseline (entries : List BaselineEntry) (mode : BaselineMode) : BaselineFile :=
  { version := 1, mode := mode, entries := entries }

/-- JS object property read `record[key]` on a record built by assignments:
the last assignment to a key wins. -/
def recordGet (scores : List (String × ℚ)) (key : String) : Option ℚ :=
  (scores.reverse.find? (fun e => e.fst == key)).map (fun e => e.snd)

/-- First-occurrence-order deduplication with an accumulator of seen keys:
JS `Object.keys` / `Set` iteration order. -/
def dedupFirst (seen : List String) : List String → List String
  | [] => []
  | x :: xs =>
    if seen.contains x then dedupFirst seen xs
    else x :: dedupFirst (x :: seen) xs

/-- `Object.keys(record)` for a record built by assignments: keys in
first-assignment order. -/
def recordKeys (scores : List (String × ℚ)) : List String :=
  dedupFirst [] (scores.map (fun e => e.fst))

/-- The `baselineMap` lookup in `compareResults`: a JS `Map` keyed by entry
name, later entries overwriting earlier ones. -/
def baselineMapGet (entries : List BaselineEntry) (name : String) : Option BaselineEntry :=
  entries.reverse.find? (fun e => e.name == name)

/-- One element of `PromptCompareResult.criteriaDeltas` from types.ts. -/
structure CriteriaDelta where
  criterion : String
  current : ℚ
  baseline : ℚ
  delta : ℚ
deriving DecidableEq, Repr

/-- `PromptCompareResult` from types.ts. -/
structure PromptCompareResult where
  name : String
  contentType : String
  currentScore : ℚ
  baselineScore : Option ℚ
  delta : ℚ
  regressed : Bool
  newPrompt : Bool
  criteriaDeltas : List CriteriaDelta
deriving DecidableEq, Repr

/-- The `summary` record of `CompareResult` from types.ts. -/
structure CompareSummary where
  total : Nat
  regressed : Nat
  improved : Nat
  unchanged : Nat
  new : Nat
  criterionRegressions : Nat
deriving DecidableEq, Repr

/-- `CompareResult` from types.ts. -/
structure CompareResult where
  passed : Bool
  prompts : List PromptCompareResult
  summary : CompareSummary
deriving DecidableEq, Repr

/-- The `criteriaDeltas` computation in `compareResults`: the union (in
first-occurrence order) of baseline and current criterion names, each with
current value (0 if not scored now), baseline value (0 if absent), and their
difference. -/
def criteriaDeltasOf (base : BaselineEntry) (result : EvalResult) : List CriteriaDelta :=
  let allCriteria := dedupFirst []
    (recordKeys base.scores ++ result.scores.map (fun s => s.criterion))
  allCriteria.map (fun criterion =>
    let currentScore := ((result.scores.find? (fun s => s.criterion == criterion)).map
      (fun s => s.score)).getD 0
    let baselineScore := (recordGet base.scores criterion).getD 0
    { criterion := criterion
      current := currentScore
      baseline := baselineScore
      delta := currentScore - baselineScore })

/-- The `evaluatedDeltas` restriction in `compareResults`: only deltas of
criteria the current run actually scored. -/
def evaluatedDeltasOf (base : BaselineEntry) (result : EvalResult) : List CriteriaDelta :=
  (criteriaDeltasOf base result).filter
    (fun d => (result.scores.map (fun s => s.criterion)).contains d.criterion)

/-- `hasCriterionRegression` in `compareResults`: some evaluated criterion
fell by strictly more than the threshold. -/
def hasCriterionRegressionOf (threshold : ℚ) (base : BaselineEntry) (result : EvalResult) : Bool :=
  (evaluatedDeltasOf base result).any (fun d => decide (d.delta < -threshold))

/-- The per-item body of the `compareResults` loop, producing one
`PromptCompareResult`. -/
def comparePrompt (entries : List BaselineEntry) (threshold : ℚ) (name : String)
    (result : EvalResult) : PromptCompareResult :=
  match baselineMapGet entries name with
  | none =>
    { name := name
      contentType := result.contentType
      currentScore := result.overallScore
      baselineScore := none
      delta := 0
      regressed := false
      newPrompt := true
      criteriaDeltas := [] }
  | some base =>
    let delta := result.overallScore - base.overallScore
    let isRegressed := decide (delta < -threshold) || hasCriterionRegressionOf threshold base result
    { name := name
      contentType := result.contentType
      currentScore := result.overallScore
      baselineScore := some base.overallScore
      delta := delta
      regressed := isRegressed
      newPrompt := false
      criteriaDeltas := criteriaDeltasOf base result }

/-- The per-item count added to `criterionRegressionCount`: the number of
evaluated criteria that fell by strictly more than the threshold (the
guard `if (hasCriterionRegression)` in the source adds exactly this count, which
is 0 when the guard is false). -/
def promptCriterionRegressions (entries : List BaselineEntry) (threshold : ℚ) (name : String)
    (result : EvalResult) : Nat :=
  match baselineMapGet entries name with
  | none => 0
  | some base =>
    ((evaluatedDeltasOf base result).filter (fun d => decide (d.delta < -threshold))).length

/-- The mutually exclusive classification of the `if/else if` counter chain
in `compareResults`. -/
inductive PromptClass
  | asNew
  | asRegressed
  | asImproved
  | asUnchanged
deriving BEq, DecidableEq, Repr

/-- The `if (isNew) ... else if (isRegressed) ... else if (delta > threshold)
... else ...` chain of `compareResults`, expressed on the pushed prompt
record (whose fields are exactly the values the chain tests). -/
def promptClass (threshold : ℚ) (p : PromptCompareResult) : PromptClass :=
  if p.newPrompt then PromptClass.asNew
  else if p.regressed then PromptClass.asRegressed
  else if threshold < p.delta then PromptClass.asImproved
  else PromptClass.asUnchanged

/-- `compareResults` from baseline.ts.  The imperative counters are rendered
as the sizes of the classification buckets over the produced prompts, and
`criterionRegressionCount` as the sum of the per-item counts. -/
def compareResults (current : List (String × EvalResult)) (baseline : BaselineFile)
    (threshold : ℚ) : CompareResult :=
  let prompts := current.map (fun nr => comparePrompt baseline.entries threshold nr.fst nr.snd)
  let newCount :=
    (prompts.filter (fun p => decide (promptClass threshold p = PromptClass.asNew))).length
  let regressedCount :=
    (prompts.filter (fun p => decide (promptClass threshold p = PromptClass.asRegressed))).length
  let improvedCount :=
    (prompts.filter (fun p => decide (promptClass threshold p = PromptClass.asImproved))).length
  let unchangedCount :=
    (prompts.filter (fun p => decide (promptClass threshold p = PromptClass.asUnchanged))).length
  let criterionRegressionCount :=
    (current.map (fun nr => promptCriterionRegressions baseline.entries threshold nr.fst nr.snd)).sum
  { passed := regressedCount == 0
    prompts := prompts
    summary :=
      { total := prompts.length
        regressed := regressedCount
        improved := improvedCount
        unchanged := unchangedCount
        new := newCount
        criterionRegressions := criterionRegressionCount } }

/-! ## Spec-side formulas (clearly separated renderings of the words of the spec,
compared against the code-derived definitions in the claim theorems) -/

/-- Spec §4.2/§8: `overallScore = Σ(score.score × weight) / Σ(weight)` over
all produced Scores, weight looked up by criterion name from the applicable
set (default 1); 0 when the total weight is 0. -/
def OverallScoreSpec (applicable : List EvalCriterion) (res : EvalResult) : Prop :=
  res.overallScore =
    (res.scores.map (fun s => s.score * weightFor applicable s.criterion)).sum /
      (res.scores.map (fun s => weightFor applicable s.criterion)).sum ∧
  ((res.scores.map (fun s => weightFor applicable s.criterion)).sum = 0 → res.overallScore = 0)

/-- Spec §3/§8: `passed` is true iff every Score whose criterion is not
marked optional among the applicable criteria has `passed = true`. -/
def PassedSpec (applicable : List EvalCriterion) (res : EvalResult) : Prop :=
  res.passed = true ↔
    ∀ s ∈ res.scores,
      (optionalNamesOf applicable).contains s.criterion = false → s.passed = true

/-! ## Sample data used by the witness theorems -/

/-- A sample input document. -/
def sampleInput : EvalInput :=
  { content := "hello world", contentType := "lesson" }

/-- A two-assertion config scoring 1/5 and 9/10, combined with mode `all`. -/
def sampleCfgAll : CriterionConfig :=
  { name := "combo"
    description := "two fixed assertions"
    contentTypes := ContentTypes.wildcard
    threshold := 1
    weight := 1
    optional := false
    transforms := []
    assertions :=
      [fun _ => { passed := false, score := 1/5, reasoning := "low" },
       fun _ => { passed := true, score := 9/10, reasoning := "high" }]
    mode := AggMode.all }

/-- The same config combined with mode `any`. -/
def sampleCfgAny : CriterionConfig :=
  { sampleCfgAll with mode := AggMode.any }

/-- A config with an empty assertion list. -/
def sampleCfgEmpty : CriterionConfig :=
  { name := "vacuous"
    description := "no assertions"
    contentTypes := ContentTypes.wildcard
    threshold := 1
    weight := 1
    optional := false
    transforms := []
    assertions := []
    mode := AggMode.all }

/-- A deterministic criterion applicable to everything, scoring 1. -/
def sampleDetFormat : EvalCriterion :=
  createCriterion
    { name := "format"
      description := "format check"
      contentTypes := ContentTypes.wildcard
      threshold := 1
      weight := 1
      optional := false
      transforms := []
      assertions := [fun _ => { passed := true, score := 1, reasoning := "well formed" }]
      mode := AggMode.all }

/-- A deterministic lesson-only criterion with weight 1/2, scoring 1/2. -/
def sampleDetDepth : EvalCriterion :=
  createCriterion
    { name := "depth"
      description := "depth check"
      contentTypes := ContentTypes.tags ["lesson"]
      threshold := 1
      weight := 1/2
      optional := false
      transforms := []
      assertions := [fun _ => { passed := false, score := 1/2, reasoning := "single heading" }]
      mode := AggMode.all }

/-- A judged lesson-only criterion delegating to the judge on a 1–5 scale. -/
def sampleJudged : EvalCriterion :=
  { name := "insight"
    description := "judged insight"
    contentTypes := ContentTypes.tags ["lesson"]
    method := EvalMethod.llm_judge
    threshold := 3/5
    weight := 2
    optional := false
    evaluate := fun _ j =>
      match j with
      | some judge =>
        let outcome := judge.score "content" (Rubric.plain "insight") none
        { criterion := "insight"
          score := outcome.score / 5
          rawScore := outcome.score
          maxScore := 5
          passed := decide (3/5 ≤ outcome.score / 5)
          reasoning := outcome.reasoning
          suggestions := outcome.suggestions }
      | none =>
        { criterion := "insight"
          score := 0
          rawScore := 0
          maxScore := 5
          passed := false
          reasoning := "no judge"
          suggestions := none } }

/-- A judge that always returns 4/5. -/
def sampleJudge : Judge :=
  { score := fun _ _ _ =>
      { score := 4, reasoning := "strong", suggestions := some ["tighten intro"] } }

/-- A runner over the three sample criteria with a judge configured. -/
def sampleRunnerJ : EvalRunner :=
  { criteria := [sampleDetFormat, sampleDetDepth, sampleJudged], judge := some sampleJudge }

/-- The same catalog with no judge configured. -/
def sampleRunnerNoJudge : EvalRunner :=
  { criteria := [sampleDetFormat, sampleDetDepth, sampleJudged], judge := none }

/-- Empty feedback record (used to build sample results by hand). -/
def emptyFeedback : EvalFeedback :=
  { failedCriteria := [], strengths := [], suggestions := [] }

/-- Fallback result for the impossible error branch of `sampleFullRes`. -/
def fallbackResult : EvalResult :=
  { overallScore := 0, passed := true, scores := [], feedback := emptyFeedback, contentType := "" }

/-- The concrete full-evaluation result of the sample runner on the sample
input. -/
def sampleFullRes : EvalResult :=
  match sampleRunnerJ.evaluate sampleInput with
  | Except.ok res => res
  | Except.error _ => fallbackResult

/-- A hand-built score for comparator samples. -/
def mkScore (criterion : String) (score : ℚ) (passed : Bool) : EvalScore :=
  { criterion := criterion
    score := score
    rawScore := score
    maxScore := 1
    passed := passed
    reasoning := "r"
    suggestions := none }

/-- A hand-built result for comparator samples. -/
def mkResult (contentType : String) (overallScore : ℚ) (scores : List EvalScore)
    (passed : Bool) : EvalResult :=
  { overallScore := overallScore
    passed := passed
    scores := scores
    feedback := emptyFeedback
    contentType := contentType }

/-- Baseline entry whose overall score masks a per-criterion drop. -/
def wEntryMasked : BaselineEntry :=
  { name := "p1", contentType := "lesson", overallScore := 1, scores := [("a", 1), ("b", 0)] }

/-- Current result with equal overall score but criterion "a" halved. -/
def wResultMasked : EvalResult :=
  mkResult "lesson" 1 [mkScore "a" (1/2) true] true

/-- Baseline entry with no recorded criteria, overall score 1. -/
def wEntryPlain : BaselineEntry :=
  { name := "p2", contentType := "lesson", overallScore := 1, scores := [] }

/-- Current result sitting exactly at the tolerance boundary below 1. -/
def wResultBoundary : EvalResult :=
  mkResult "lesson" (19/20) [] true

/-- Current result for a prompt with no baseline entry. -/
def wResultNew : EvalResult :=
  mkResult "lesson" (3/4) [mkScore "a" (3/4) true] true

/-! ## Helper lemmas -/

/-- The factory-built score is the combination of the assertion scores. -/
lemma createCriterion_score (config : CriterionConfig) (input : EvalInput) (j : Option Judge) :
    ((createCriterion config).evaluate input j).score =
      combineScores config.mode (assertionScores config input) := rfl

/-- The factory-built passed flag is the threshold comparison. -/
lemma createCriterion_passed (config : CriterionConfig) (input : EvalInput) (j : Option Judge) :
    ((createCriterion config).evaluate input j).passed =
      decide (config.threshold ≤ ((createCriterion config).evaluate input j).score) := rfl

/-- The factory-built reasoning field. -/
lemma createCriterion_reasoning (config : CriterionConfig) (input : EvalInput) (j : Option Judge) :
    ((createCriterion config).evaluate input j).reasoning =
      match assertionResults config input with
      | [] => "No assertions to check"
      | _ => String.intercalate "; " ((assertionResults config input).map (fun r => r.reasoning)) := rfl

lemma spreadMin_mem (xs : List ℚ) (x : ℚ) : spreadMin x xs = x ∨ spreadMin x xs ∈ xs := by
  induction xs generalizing x with
  | nil => left; rfl
  | cons y ys ih =>
    rcases ih (min x y) with h | h
    · rcases le_total x y with hxy | hxy
      · left
        rw [spreadMin, List.foldl_cons] at *
        rw [h, min_eq_left hxy]
      · right
        rw [spreadMin, List.foldl_cons] at *
        rw [h, min_eq_right hxy]
        exact List.mem_cons_self _ _
    · right
      rw [spreadMin, List.foldl_cons]
      exact List.mem_cons_of_mem _ h

lemma spreadMin_le_init (xs : List ℚ) (x : ℚ) : spreadMin x xs ≤ x := by
  induction xs generalizing x with
  | nil => exact le_refl x
  | cons y ys ih =>
    rw [spreadMin, List.foldl_cons]
    exact le_trans (ih (min x y)) (min_le_left x y)

lemma spreadMin_le_mem (xs : List ℚ) (x : ℚ) : ∀ z ∈ xs, spreadMin x xs ≤ z := by
  induction xs generalizing x with
  | nil => intro z hz; cases hz
  | cons y ys ih =>
    intro z hz
    rw [spreadMin, List.foldl_cons]
    rcases List.mem_cons.mp hz with rfl | hz
    · exact le_trans (spreadMin_le_init ys (min x z)) (min_le_right x z)
    · exact ih (min x y) z hz

lemma spreadMax_mem (xs : List ℚ) (x : ℚ) : spreadMax x xs = x ∨ spreadMax x xs ∈ xs := by
  induction xs generalizing x with
  | nil => left; rfl
  | cons y ys ih =>
    rcases ih (max x y) with h | h
    · rcases le_total x y with hxy | hxy
      · right
        rw [spreadMax, List.foldl_cons] at *
        rw [h, max_eq_right hxy]
        exact List.mem_cons_self _ _
      · left
        rw [spreadMax, List.foldl_cons] at *
        rw [h, max_eq_left hxy]
    · right
      rw [spreadMax, List.foldl_cons]
      exact List.mem_cons_of_mem _ h

lemma spreadMax_init_le (xs : List ℚ) (x : ℚ) : x ≤ spreadMax x xs := by
  induction xs generalizing x with
  | nil => exact le_refl x
  | cons y ys ih =>
    rw [spreadMax, List.foldl_cons]
    exact le_trans (le_max_left x y) (ih (max x y))

lemma spreadMax_mem_le (xs : List ℚ) (x : ℚ) : ∀ z ∈ xs, z ≤ spreadMax x xs := by
  induction xs generalizing x with
  | nil => intro z hz; cases hz
  | cons y ys ih =>
    intro z hz
    rw [spreadMax, List.foldl_cons]
    rcases List.mem_cons.mp hz with rfl | hz
    · exact le_trans (le_max_right x z) (spreadMax_init_le ys (max x z))
    · exact ih (max x y) z hz

/-- The result record fields produced by `buildResult`. -/
lemma buildResult_scores (scores : List EvalScore) (applicable : List EvalCriterion)
    (ct : String) : (buildResult scores applicable ct).scores = scores := rfl

lemma buildResult_overallScore (scores : List EvalScore) (applicable : List EvalCriterion)
    (ct : String) :
    (buildResult scores applicable ct).overallScore =
      if 0 < totalWeightOf applicable scores then
        weightedSumOf applicable scores / totalWeightOf applicable scores
      else 0 := rfl

lemma buildResult_passed (scores : List EvalScore) (applicable : List EvalCriterion)
    (ct : String) :
    (buildResult scores applicable ct).passed =
      (scores.filter (fun s => !((optionalNamesOf applicable).contains s.criterion))).all
        (fun s => s.passed) := rfl

/-- A looked-up weight is the weight of some applicable criterion, so weight
positivity of the catalog transfers to the lookup (whose default is 1). -/
lemma weightFor_pos (applicable : List EvalCriterion)
    (hw : ∀ c ∈ applicable, 0 < c.weight) (criterion : String) :
    0 < weightFor applicable criterion := by
  unfold weightFor jsMapGet
  cases hf : (applicable.map (fun c => (c.name, c.weight))).reverse.find?
      (fun e => e.fst == criterion) with
  | none => simp
  | some p =>
    have hmem := List.mem_of_find?_eq_some hf
    rw [List.mem_reverse] at hmem
    obtain ⟨c, hc, rfl⟩ := List.mem_map.mp hmem
    simpa using hw c hc

lemma totalWeightOf_nonneg (applicable : List EvalCriterion) (scores : List EvalScore)
    (hw : ∀ c ∈ applicable, 0 < c.weight) : 0 ≤ totalWeightOf applicable scores := by
  apply List.sum_nonneg
  intro x hx
  obtain ⟨s, hs, rfl⟩ := List.mem_map.mp hx
  exact le_of_lt (weightFor_pos applicable hw s.criterion)

lemma totalWeightOf_pos (applicable : List EvalCriterion) (s0 : EvalScore)
    (rest : List EvalScore) (hw : ∀ c ∈ applicable, 0 < c.weight) :
    0 < totalWeightOf applicable (s0 :: rest) := by
  have h1 := weightFor_pos applicable hw s0.criterion
  have h2 := totalWeightOf_nonneg applicable rest hw
  unfold totalWeightOf at *
  rw [List.map_cons, List.sum_cons]
  linarith

lemma weightedSumOf_nonneg (applicable : List EvalCriterion) (scores : List EvalScore)
    (hs : ∀ s ∈ scores, 0 ≤ s.score ∧ s.score ≤ 1)
    (hw : ∀ c ∈ applicable, 0 < c.weight) : 0 ≤ weightedSumOf applicable scores := by
  apply List.sum_nonneg
  intro x hx
  obtain ⟨s, hsmem, rfl⟩ := List.mem_map.mp hx
  exact mul_nonneg (hs s hsmem).1 (le_of_lt (weightFor_pos applicable hw s.criterion))

lemma weightedSumOf_le_totalWeight (applicable : List EvalCriterion) (scores : List EvalScore)
    (hs : ∀ s ∈ scores, 0 ≤ s.score ∧ s.score ≤ 1)
    (hw : ∀ c ∈ applicable, 0 < c.weight) :
    weightedSumOf applicable scores ≤ totalWeightOf applicable scores := by
  unfold weightedSumOf totalWeightOf
  apply List.sum_le_sum
  intro s hsmem
  have hwpos := weightFor_pos applicable hw s.criterion
  calc s.score * weightFor applicable s.criterion
      ≤ 1 * weightFor applicable s.criterion :=
        mul_le_mul_of_nonneg_right (hs s hsmem).2 (le_of_lt hwpos)
    _ = weightFor applicable s.criterion := one_mul _

/-- `buildResult` satisfies the spec-side weighted-mean formula when the
applicable weights are positive (as the data model requires). -/
lemma overallScoreSpec_buildResult (scores : List EvalScore) (applicable : List EvalCriterion)
    (ct : String) (hw : ∀ c ∈ applicable, 0 < c.weight) :
    OverallScoreSpec applicable (buildResult scores applicable ct) := by
  unfold OverallScoreSpec
  rw [buildResult_scores, buildResult_overallScore]
  have htw : (scores.map (fun s => weightFor applicable s.criterion)).sum =
      totalWeightOf applicable scores := rfl
  have hws : (scores.map (fun s => s.score * weightFor applicable s.criterion)).sum =
      weightedSumOf applicable scores := rfl
  rw [htw, hws]
  cases scores with
  | nil =>
    constructor
    · norm_num [totalWeightOf, weightedSumOf]
    · intro
      norm_num [totalWeightOf]
  | cons s0 rest =>
    have hpos := totalWeightOf_pos applicable s0 rest hw
    rw [if_pos hpos]
    exact ⟨rfl, fun h0 => absurd h0 (ne_of_gt hpos)⟩

/-- `buildResult` satisfies the spec-side pass/fail rule. -/
lemma passedSpec_buildResult (scores : List EvalScore) (applicable : List EvalCriterion)
    (ct : String) : PassedSpec applicable (buildResult scores applicable ct) := by
  unfold PassedSpec
  rw [buildResult_scores, buildResult_passed, List.all_eq_true]
  constructor
  · intro hall s hs hopt
    exact hall s (List.mem_filter.mpr ⟨hs, by rw [hopt]; rfl⟩)
  · intro hall s hsf
    obtain ⟨hm, hcond⟩ := List.mem_filter.mp hsf
    apply hall s hm
    simpa using hcond

/-- Bounds on the aggregated overall score under the data-model hypotheses:
scores in [0,1] and positive weights. -/
lemma buildResult_overall_bounds (scores : List EvalScore) (applicable : List EvalCriterion)
    (ct : String) (hs : ∀ s ∈ scores, 0 ≤ s.score ∧ s.score ≤ 1)
    (hw : ∀ c ∈ applicable, 0 < c.weight) :
    0 ≤ (buildResult scores applicable ct).overallScore ∧
      (buildResult scores applicable ct).overallScore ≤ 1 := by
  rw [buildResult_overallScore]
  by_cases hpos : 0 < totalWeightOf applicable scores
  · rw [if_pos hpos]
    constructor
    · exact div_nonneg (weightedSumOf_nonneg applicable scores hs hw) (le_of_lt hpos)
    · rw [div_le_one hpos]
      exact weightedSumOf_le_totalWeight applicable scores hs hw
  · rw [if_neg hpos]
    norm_num

/-- An empty score list aggregates to overall score 0. -/
lemma buildResult_empty_overall (applicable : List EvalCriterion) (ct : String) :
    (buildResult [] applicable ct).overallScore = 0 := by
  rw [buildResult_overallScore]
  norm_num [totalWeightOf]

/-- Inverting a successful full evaluation: the scores come from the
deterministic-then-judged criteria and the result is their aggregation over
the applicable set. -/
lemma evaluate_ok_exists (r : EvalRunner) (input : EvalInput) (res : EvalResult)
    (h : r.evaluate input = Except.ok res) :
    ∃ llmScores,
      runJudged r.judge input
        ((r.getCriteria input.contentType).filter (fun c => c.method == EvalMethod.llm_judge)) =
        Except.ok llmScores ∧
      res = buildResult
        ((((r.getCriteria input.contentType).filter
            (fun c => c.method == EvalMethod.deterministic)).map
          (fun c => c.evaluate input none)) ++ llmScores)
        (r.getCriteria input.contentType) input.contentType := by
  simp only [EvalRunner.evaluate] at h
  cases hr : runJudged r.judge input
      ((r.getCriteria input.contentType).filter (fun c => c.method == EvalMethod.llm_judge)) with
  | error e =>
    rw [hr] at h
    cases h
  | ok ls =>
    rw [hr] at h
    simp only [Except.ok.injEq] at h
    exact ⟨ls, rfl, h.symm⟩

/-- The sample full evaluation succeeds with the concrete result. -/
lemma sampleFullRes_ok : sampleRunnerJ.evaluate sampleInput = Except.ok sampleFullRes := rfl

/-- A prompt reported as regressed is never a new prompt. -/
lemma comparePrompt_regressed_not_new (entries : List BaselineEntry) (threshold : ℚ)
    (name : String) (result : EvalResult) :
    (comparePrompt entries threshold name result).regressed = true →
    (comparePrompt entries threshold name result).newPrompt = false := by
  unfold comparePrompt
  cases baselineMapGet entries name <;> simp

/-- The criterion-regression flag as an existential over the evaluated
criteria deltas. -/
lemma hasCriterionRegression_iff (threshold : ℚ) (base : BaselineEntry) (result : EvalResult) :
    hasCriterionRegressionOf threshold base result = true ↔
      ∃ d ∈ criteriaDeltasOf base result,
        (result.scores.map (fun s => s.criterion)).contains d.criterion = true ∧
          d.delta < -threshold := by
  unfold hasCriterionRegressionOf evaluatedDeltasOf
  simp [List.any_eq_true, List.mem_filter, and_assoc]

/-- The classification chain assigns `asRegressed` exactly to non-new,
regressed prompts. -/
lemma promptClass_regressed_iff (threshold : ℚ) (p : PromptCompareResult) :
    promptClass threshold p = PromptClass.asRegressed ↔
      p.newPrompt = false ∧ p.regressed = true := by
  unfold promptClass
  cases hn : p.newPrompt <;> cases hr : p.regressed <;> by_cases hd : threshold < p.delta <;>
    simp [hd]

/-- The four classification buckets partition any prompt list. -/
lemma class_partition (threshold : ℚ) (l : List PromptCompareResult) :
    (l.filter (fun p => decide (promptClass threshold p = PromptClass.asNew))).length +
    (l.filter (fun p => decide (promptClass threshold p = PromptClass.asRegressed))).length +
    (l.filter (fun p => decide (promptClass threshold p = PromptClass.asImproved))).length +
    (l.filter (fun p => decide (promptClass threshold p = PromptClass.asUnchanged))).length
      = l.length := by
  induction l with
  | nil => rfl
  | cons p ps ih =>
    simp only [List.filter_cons]
    cases hc : promptClass threshold p <;> simp [hc] <;> omega

/-- Case analysis of the regressed/improved/unchanged tail of the
classification chain as a function of the overall delta, for a nonnegative
tolerance. -/
lemma threeway_class_iff (θ δ : ℚ) (hθ : 0 ≤ θ) :
    ((if δ < -θ then PromptClass.asRegressed
      else if θ < δ then PromptClass.asImproved
      else PromptClass.asUnchanged) = PromptClass.asRegressed ↔ δ < -θ) ∧
    ((if δ < -θ then PromptClass.asRegressed
      else if θ < δ then PromptClass.asImproved
      else PromptClass.asUnchanged) = PromptClass.asImproved ↔ θ < δ) ∧
    ((if δ < -θ then PromptClass.asRegressed
      else if θ < δ then PromptClass.asImproved
      else PromptClass.asUnchanged) = PromptClass.asUnchanged ↔
        (-θ ≤ δ ∧ δ ≤ θ)) := by
  refine ⟨?_, ?_, ?_⟩ <;> split_ifs with h1 h2
  · simp [h1]
  · simp [h1]
  · simp [h1]
  · constructor
    · intro hc
      exact absurd hc (by simp)
    · intro hlt
      exfalso
      linarith
  · simp [h2]
  · constructor
    · intro hc
      exact absurd hc (by simp)
    · intro hlt
      exact absurd hlt h2
  · constructor
    · intro hc
      exact absurd hc (by simp)
    · intro hand
      linarith [hand.1]
  · constructor
    · intro hc
      exact absurd hc (by simp)
    · intro hand
      linarith [hand.2]
  · constructor
    · intro _
      exact ⟨by linarith, by linarith⟩
    · intro _
      rfl

/-- The applicable criteria of the sample runner on the sample input. -/
lemma sample_getCriteria :
    sampleRunnerJ.getCriteria sampleInput.contentType =
      [sampleDetFormat, sampleDetDepth, sampleJudged] := rfl

/-- All sample catalog weights are positive. -/
lemma sample_weights_pos :
    ∀ c ∈ sampleRunnerJ.getCriteria sampleInput.contentType, 0 < c.weight := by
  rw [sample_getCriteria]
  intro c hc
  rcases List.mem_cons.mp hc with rfl | hc
  · norm_num [sampleDetFormat, createCriterion]
  rcases List.mem_cons.mp hc with rfl | hc
  · norm_num [sampleDetDepth, createCriterion]
  rcases List.mem_cons.mp hc with rfl | hc
  · norm_num [sampleJudged]
  · cases hc

/-- The score values of the concrete sample evaluation. -/
lemma sample_score_values :
    sampleFullRes.scores.map (fun s => s.score) = [1, 1/2, 4/5] := rfl

/-- All sample scores are within [0,1]. -/
lemma sample_scores_bounds :
    ∀ s ∈ sampleFullRes.scores, 0 ≤ s.score ∧ s.score ≤ 1 := by
  intro s hs
  have hmem : s.score ∈ sampleFullRes.scores.map (fun s => s.score) :=
    List.mem_map_of_mem _ hs
  rw [sample_score_values] at hmem
  simp only [List.mem_cons, List.not_mem_nil, or_false] at hmem
  rcases hmem with h | h | h <;> rw [h] <;> constructor <;> norm_num

/-- The concrete per-criterion deltas of the masked-regression sample. -/
lemma sample_criteriaDeltas :
    criteriaDeltasOf wEntryMasked wResultMasked =
      [{ criterion := "a", current := 1/2, baseline := 1, delta := 1/2 - 1 },
       { criterion := "b", current := 0, baseline := 0, delta := 0 - 0 }] := rfl

/-! ## Claim theorems -/

/-- Claim C1: for every evaluation (full or quick), the `overallScore` of
the Result equals the weighted mean Σ(score.score × weight) / Σ(weight)
over all produced Scores, where each weight is looked up by criterion name
from the applicable-criteria set of that call and defaults to 1 when absent;
when the total weight is 0 (no scores produced), `overallScore` equals 0.
(Weights are positive numbers per the data model.) -/
theorem overallScore_is_weighted_mean (r : EvalRunner) (input : EvalInput)
    (hw : ∀ c ∈ r.getCriteria input.contentType, 0 < c.weight) :
    (∀ res, r.evaluate input = Except.ok res →
      OverallScoreSpec (r.getCriteria input.contentType) res) ∧
    OverallScoreSpec
      ((r.getCriteria input.contentType).filter (fun c => c.method == EvalMethod.deterministic))
      (r.quickCheck input) := by
  constructor
  · intro res h
    obtain ⟨ls, _, rfl⟩ := evaluate_ok_exists r input res h
    exact overallScoreSpec_buildResult _ _ _ hw
  · have hw2 : ∀ c ∈ (r.getCriteria input.contentType).filter
        (fun c => c.method == EvalMethod.deterministic), 0 < c.weight :=
      fun c hc => hw c (List.mem_of_mem_filter hc)
    simp only [EvalRunner.quickCheck]
    exact overallScoreSpec_buildResult _ _ _ hw2

/-- Witness for C1: the concrete full-evaluation result of the sample runner
satisfies the weighted-mean formula; the positivity hypothesis is checked on
the concrete catalog. -/
theorem overallScore_is_weighted_mean_witness :
    OverallScoreSpec (sampleRunnerJ.getCriteria sampleInput.contentType) sampleFullRes :=
  (overallScore_is_weighted_mean sampleRunnerJ sampleInput sample_weights_pos).1
    sampleFullRes sampleFullRes_ok

/-- Claim C2: for every evaluation (full or quick), the `passed` flag of
the Result is true iff every produced Score whose criterion name is not marked
optional among the applicable criteria of that call has `passed = true`;
failing optional scores never block `passed`, and an empty required set
passes vacuously. -/
theorem passed_iff_required_scores_pass (r : EvalRunner) (input : EvalInput) :
    (∀ res, r.evaluate input = Except.ok res →
      PassedSpec (r.getCriteria input.contentType) res) ∧
    PassedSpec
      ((r.getCriteria input.contentType).filter (fun c => c.method == EvalMethod.deterministic))
      (r.quickCheck input) := by
  constructor
  · intro res h
    obtain ⟨ls, _, rfl⟩ := evaluate_ok_exists r input res h
    exact passedSpec_buildResult _ _ _
  · simp only [EvalRunner.quickCheck]
    exact passedSpec_buildResult _ _ _

/-- Witness for C2: the pass/fail rule instantiated at the concrete sample
evaluation. -/
theorem passed_iff_required_scores_pass_witness :
    PassedSpec (sampleRunnerJ.getCriteria sampleInput.contentType) sampleFullRes :=
  (passed_iff_required_scores_pass sampleRunnerJ sampleInput).1 sampleFullRes sampleFullRes_ok

/-- Claim C3: the quick entry point never invokes the Judge (its result does
not depend on the configured judge) and its scores are exactly those of the
applicable deterministic criteria; the full entry point fails with the
"judge required for criterion <name>" error whenever a judged criterion is
applicable and no Judge was supplied (naming the first such criterion). -/
theorem quickCheck_never_judges_evaluate_requires_judge (r : EvalRunner) (input : EvalInput) :
    (∀ j : Option Judge,
      EvalRunner.quickCheck { criteria := r.criteria, judge := j } input = r.quickCheck input) ∧
    ((r.quickCheck input).scores =
      ((r.getCriteria input.contentType).filter
        (fun c => c.method == EvalMethod.deterministic)).map (fun c => c.evaluate input none)) ∧
    (∀ c rest, r.judge = none →
      (r.getCriteria input.contentType).filter (fun c => c.method == EvalMethod.llm_judge) =
        c :: rest →
      r.evaluate input =
        Except.error ("LLM judge required for criterion \"" ++ c.name ++
          "\" but none provided")) := by
  refine ⟨fun j => rfl, rfl, ?_⟩
  intro c rest hj hf
  simp only [EvalRunner.evaluate, hj, hf, runJudged]

/-- Witness for C3: the sample catalog without a judge — the judged
criterion list is the singleton "insight" and the full evaluation fails with
the message naming it. -/
theorem quickCheck_never_judges_evaluate_requires_judge_witness :
    sampleRunnerNoJudge.judge = none ∧
    (sampleRunnerNoJudge.getCriteria sampleInput.contentType).filter
      (fun c => c.method == EvalMethod.llm_judge) = [sampleJudged] ∧
    sampleRunnerNoJudge.evaluate sampleInput =
      Except.error "LLM judge required for criterion \"insight\" but none provided" :=
  ⟨rfl, rfl,
   (quickCheck_never_judges_evaluate_requires_judge sampleRunnerNoJudge sampleInput).2.2
     sampleJudged [] rfl rfl⟩

/-- Claim C4: for a current result with a baseline entry, the prompt is
regressed iff the overall delta is strictly below −threshold or some
criterion evaluated in the current run has a delta strictly below
−threshold; criteria present only in the baseline cannot trigger it (the
right-hand side ranges only over deltas of currently-scored criteria). -/
theorem regressed_iff_overall_or_evaluated_criterion_drop
    (entries : List BaselineEntry) (threshold : ℚ) (nm : String) (result : EvalResult)
    (base : BaselineEntry) (hb : baselineMapGet entries nm = some base) :
    (comparePrompt entries threshold nm result).regressed = true ↔
      (result.overallScore - base.overallScore < -threshold ∨
        ∃ d ∈ criteriaDeltasOf base result,
          (result.scores.map (fun s => s.criterion)).contains d.criterion = true ∧
            d.delta < -threshold) := by
  simp only [comparePrompt, hb]
  rw [Bool.or_eq_true, decide_eq_true_eq, hasCriterionRegression_iff]

/-- Witness for C4: a criterion-only regression — equal overall scores but
the evaluated criterion "a" halved — marks the prompt regressed. -/
theorem regressed_iff_overall_or_evaluated_criterion_drop_witness :
    baselineMapGet [wEntryMasked] "p1" = some wEntryMasked ∧
    (comparePrompt [wEntryMasked] 0 "p1" wResultMasked).regressed = true :=
  ⟨rfl,
   (regressed_iff_overall_or_evaluated_criterion_drop [wEntryMasked] 0 "p1" wResultMasked
       wEntryMasked rfl).mpr
     (Or.inr ⟨{ criterion := "a", current := 1/2, baseline := 1, delta := 1/2 - 1 },
       by rw [sample_criteriaDeltas]; exact List.mem_cons_self _ _,
       rfl, by norm_num⟩)⟩

/-- Claim C5: the comparator classifies every prompt into exactly one
category, checked in the order new → regressed → improved → unchanged; with
no evaluated-criterion regression, regressed is exactly a strict drop below
−threshold and improved a strict rise above +threshold, so an overall delta
of exactly −threshold or exactly +threshold is classified unchanged (the
tolerance is inclusive on both sides). -/
theorem classification_order_and_inclusive_tolerance
    (entries : List BaselineEntry) (threshold : ℚ) (nm : String) (result : EvalResult)
    (hθ : 0 ≤ threshold) :
    (baselineMapGet entries nm = none →
      promptClass threshold (comparePrompt entries threshold nm result) = PromptClass.asNew) ∧
    (∀ base, baselineMapGet entries nm = some base →
      hasCriterionRegressionOf threshold base result = false →
      ((promptClass threshold (comparePrompt entries threshold nm result) =
          PromptClass.asRegressed ↔
          (comparePrompt entries threshold nm result).delta < -threshold) ∧
       (promptClass threshold (comparePrompt entries threshold nm result) =
          PromptClass.asImproved ↔
          threshold < (comparePrompt entries threshold nm result).delta) ∧
       (promptClass threshold (comparePrompt entries threshold nm result) =
          PromptClass.asUnchanged ↔
          (-threshold ≤ (comparePrompt entries threshold nm result).delta ∧
            (comparePrompt entries threshold nm result).delta ≤ threshold)) ∧
       ((comparePrompt entries threshold nm result).delta = -threshold →
          promptClass threshold (comparePrompt entries threshold nm result) =
            PromptClass.asUnchanged) ∧
       ((comparePrompt entries threshold nm result).delta = threshold →
          promptClass threshold (comparePrompt entries threshold nm result) =
            PromptClass.asUnchanged))) := by
  constructor
  · intro h
    simp [comparePrompt, h, promptClass]
  · intro base hb hcr
    have hdelta : (comparePrompt entries threshold nm result).delta =
        result.overallScore - base.overallScore := by
      simp [comparePrompt, hb]
    have hnew : (comparePrompt entries threshold nm result).newPrompt = false := by
      simp [comparePrompt, hb]
    have hreg : (comparePrompt entries threshold nm result).regressed =
        decide (result.overallScore - base.overallScore < -threshold) := by
      simp [comparePrompt, hb, hcr]
    have hclass : promptClass threshold (comparePrompt entries threshold nm result) =
        if result.overallScore - base.overallScore < -threshold then PromptClass.asRegressed
        else if threshold < result.overallScore - base.overallScore then PromptClass.asImproved
        else PromptClass.asUnchanged := by
      unfold promptClass
      rw [hnew, hreg, hdelta]
      simp [decide_eq_true_eq]
    obtain ⟨hr1, hr2, hr3⟩ :=
      threeway_class_iff threshold (result.overallScore - base.overallScore) hθ
    rw [hdelta, hclass]
    exact ⟨hr1, hr2, hr3,
      fun he => hr3.mpr ⟨by linarith, by linarith⟩,
      fun he => hr3.mpr ⟨by linarith, by linarith⟩⟩

/-- Witness for C5: with tolerance 1/20 and a current overall score exactly
1/20 below the baseline, the prompt is classified unchanged. -/
theorem classification_order_and_inclusive_tolerance_witness :
    baselineMapGet [wEntryPlain] "p2" = some wEntryPlain ∧
    hasCriterionRegressionOf (1/20) wEntryPlain wResultBoundary = false ∧
    (comparePrompt [wEntryPlain] (1/20) "p2" wResultBoundary).delta = -(1/20) ∧
    promptClass (1/20) (comparePrompt [wEntryPlain] (1/20) "p2" wResultBoundary) =
      PromptClass.asUnchanged := by
  have hd : (comparePrompt [wEntryPlain] (1/20) "p2" wResultBoundary).delta =
      (19/20 : ℚ) - 1 := rfl
  have hd2 : (comparePrompt [wEntryPlain] (1/20) "p2" wResultBoundary).delta = -(1/20) := by
    rw [hd]
    norm_num
  exact ⟨rfl, rfl, hd2,
    (((classification_order_and_inclusive_tolerance [wEntryPlain] (1/20) "p2" wResultBoundary
        (by norm_num)).2 wEntryPlain rfl rfl).2.2.2.1 hd2)⟩

/-- Claim C6: a current result whose name has no baseline entry yields a
comparison with newPrompt = true, baselineScore = null, delta explicitly 0,
empty criteriaDeltas, regressed = false, classified (and counted) new rather
than regressed or improved. -/
theorem new_prompt_neutrality (entries : List BaselineEntry) (threshold : ℚ) (nm : String)
    (result : EvalResult) (h : baselineMapGet entries nm = none) :
    (comparePrompt entries threshold nm result).newPrompt = true ∧
    (comparePrompt entries threshold nm result).baselineScore = none ∧
    (comparePrompt entries threshold nm result).delta = 0 ∧
    (comparePrompt entries threshold nm result).criteriaDeltas = [] ∧
    (comparePrompt entries threshold nm result).regressed = false ∧
    promptClass threshold (comparePrompt entries threshold nm result) = PromptClass.asNew ∧
    ∀ mode : BaselineMode,
      (compareResults [(nm, result)] { version := 1, mode := mode, entries := entries }
        threshold).summary.new = 1 ∧
      (compareResults [(nm, result)] { version := 1, mode := mode, entries := entries }
        threshold).summary.regressed = 0 ∧
      (compareResults [(nm, result)] { version := 1, mode := mode, entries := entries }
        threshold).summary.improved = 0 := by
  have hclass : promptClass threshold (comparePrompt entries threshold nm result) =
      PromptClass.asNew := by
    simp [comparePrompt, h, promptClass]
  refine ⟨by simp [comparePrompt, h], by simp [comparePrompt, h], by simp [comparePrompt, h],
    by simp [comparePrompt, h], by simp [comparePrompt, h], hclass, ?_⟩
  intro mode
  refine ⟨?_, ?_, ?_⟩ <;> simp [compareResults, hclass]

/-- Witness for C6: a prompt absent from the concrete baseline is neutral
and counted once under new. -/
theorem new_prompt_neutrality_witness :
    baselineMapGet [wEntryMasked] "p3" = none ∧
    (comparePrompt [wEntryMasked] 0 "p3" wResultNew).newPrompt = true ∧
    (comparePrompt [wEntryMasked] 0 "p3" wResultNew).delta = 0 ∧
    (compareResults [("p3", wResultNew)]
      { version := 1, mode := BaselineMode.quick, entries := [wEntryMasked] } 0).summary.new = 1 :=
  ⟨rfl, (new_prompt_neutrality [wEntryMasked] 0 "p3" wResultNew rfl).1,
   (new_prompt_neutrality [wEntryMasked] 0 "p3" wResultNew rfl).2.2.1,
   ((new_prompt_neutrality [wEntryMasked] 0 "p3" wResultNew rfl).2.2.2.2.2.2
     BaselineMode.quick).1⟩

/-- Claim C7: for every factory-built criterion with a non-empty assertion
list, the combined score is the minimum of all assertion scores when
mode=all and the maximum when mode=any, and the passed flag of the score
equals (combined score ≥ the threshold of the criterion). -/
theorem mode_all_min_mode_any_max (config : CriterionConfig) (input : EvalInput)
    (j : Option Judge) (h : config.assertions ≠ []) :
    (config.mode = AggMode.all →
      ((createCriterion config).evaluate input j).score ∈ assertionScores config input ∧
      ∀ x ∈ assertionScores config input, ((createCriterion config).evaluate input j).score ≤ x) ∧
    (config.mode = AggMode.any →
      ((createCriterion config).evaluate input j).score ∈ assertionScores config input ∧
      ∀ x ∈ assertionScores config input, x ≤ ((createCriterion config).evaluate input j).score) ∧
    (((createCriterion config).evaluate input j).passed = true ↔
      config.threshold ≤ ((createCriterion config).evaluate input j).score) := by
  have hne : assertionScores config input ≠ [] := by
    simp only [assertionScores, assertionResults, List.map_map, ne_eq, List.map_eq_nil_iff]
    exact h
  rcases hlist : assertionScores config input with _ | ⟨s, rest⟩
  · exact absurd hlist hne
  · refine ⟨?_, ?_, ?_⟩
    · intro hmode
      have hsc : ((createCriterion config).evaluate input j).score = spreadMin s rest := by
        rw [createCriterion_score, hlist, hmode, combineScores]
      rw [hsc]
      constructor
      · rcases spreadMin_mem rest s with he | he
        · rw [he]; exact List.mem_cons_self _ _
        · exact List.mem_cons_of_mem _ he
      · intro x hx
        rcases List.mem_cons.mp hx with rfl | hx
        · exact spreadMin_le_init rest x
        · exact spreadMin_le_mem rest s x hx
    · intro hmode
      have hsc : ((createCriterion config).evaluate input j).score = spreadMax s rest := by
        rw [createCriterion_score, hlist, hmode, combineScores]
      rw [hsc]
      constructor
      · rcases spreadMax_mem rest s with he | he
        · rw [he]; exact List.mem_cons_self _ _
        · exact List.mem_cons_of_mem _ he
      · intro x hx
        rcases List.mem_cons.mp hx with rfl | hx
        · exact spreadMax_init_le rest x
        · exact spreadMax_mem_le rest s x hx
    · rw [createCriterion_passed]
      exact decide_eq_true_iff

/-- Witness for C7: at the concrete two-assertion configs with assertion
scores [1/5, 9/10], mode all combines to a lower bound and mode any to an
upper bound; the bounds are instantiated at concrete members. -/
theorem mode_all_min_mode_any_max_witness :
    sampleCfgAll.assertions ≠ [] ∧
    ((createCriterion sampleCfgAll).evaluate sampleInput none).score ∈
      assertionScores sampleCfgAll sampleInput ∧
    ((createCriterion sampleCfgAll).evaluate sampleInput none).score ≤ 1/5 ∧
    ((createCriterion sampleCfgAny).evaluate sampleInput none).score ∈
      assertionScores sampleCfgAny sampleInput ∧
    9/10 ≤ ((createCriterion sampleCfgAny).evaluate sampleInput none).score :=
  ⟨by simp [sampleCfgAll],
   ((mode_all_min_mode_any_max sampleCfgAll sampleInput none (by simp [sampleCfgAll])).1 rfl).1,
   ((mode_all_min_mode_any_max sampleCfgAll sampleInput none (by simp [sampleCfgAll])).1 rfl).2
     (1/5) (by simp [assertionScores, assertionResults, sampleCfgAll, applyTransforms]),
   ((mode_all_min_mode_any_max sampleCfgAny sampleInput none
       (by simp [sampleCfgAny, sampleCfgAll])).2.1 rfl).1,
   ((mode_all_min_mode_any_max sampleCfgAny sampleInput none
       (by simp [sampleCfgAny, sampleCfgAll])).2.1 rfl).2
     (9/10)
     (by simp [assertionScores, assertionResults, sampleCfgAny, sampleCfgAll, applyTransforms])⟩

/-- Claim C8: a factory-built criterion with an empty assertion list and
threshold in [0,1] scores 1, passes, and reports the fixed "no assertions"
sentinel reasoning on any input. -/
theorem empty_assertions_vacuous_pass (config : CriterionConfig) (input : EvalInput)
    (j : Option Judge) (h : config.assertions = [])
    (h0 : 0 ≤ config.threshold) (h1 : config.threshold ≤ 1) :
    ((createCriterion config).evaluate input j).score = 1 ∧
    ((createCriterion config).evaluate input j).passed = true ∧
    ((createCriterion config).evaluate input j).reasoning = "No assertions to check" := by
  have hres : assertionResults config input = [] := by
    simp [assertionResults, h]
  have hsc : assertionScores config input = [] := by
    simp [assertionScores, hres]
  have h1s : ((createCriterion config).evaluate input j).score = 1 := by
    rw [createCriterion_score, hsc]
    rfl
  refine ⟨h1s, ?_, ?_⟩
  · rw [createCriterion_passed, h1s]
    exact decide_eq_true h1
  · rw [createCriterion_reasoning, hres]

/-- Witness for C8: the concrete empty-assertion config with threshold 1
scores 1, passes and yields the sentinel reasoning. -/
theorem empty_assertions_vacuous_pass_witness :
    sampleCfgEmpty.assertions = [] ∧ 0 ≤ sampleCfgEmpty.threshold ∧
    sampleCfgEmpty.threshold ≤ 1 ∧
    ((createCriterion sampleCfgEmpty).evaluate sampleInput none).score = 1 ∧
    ((createCriterion sampleCfgEmpty).evaluate sampleInput none).passed = true ∧
    ((createCriterion sampleCfgEmpty).evaluate sampleInput none).reasoning =
      "No assertions to check" := by
  refine ⟨rfl, by norm_num [sampleCfgEmpty], by norm_num [sampleCfgEmpty], ?_⟩
  exact empty_assertions_vacuous_pass sampleCfgEmpty sampleInput none rfl
    (by norm_num [sampleCfgEmpty]) (by norm_num [sampleCfgEmpty])

/-- Claim C9: the summary buckets partition the prompts — new + regressed +
improved + unchanged = total = number of prompts = number of current
entries — and the comparison passes iff no prompt is regressed. -/
theorem summary_partition_and_passed_iff_no_regression
    (current : List (String × EvalResult)) (baseline : BaselineFile) (threshold : ℚ) :
    (compareResults current baseline threshold).summary.new +
      (compareResults current baseline threshold).summary.regressed +
      (compareResults current baseline threshold).summary.improved +
      (compareResults current baseline threshold).summary.unchanged =
      (compareResults current baseline threshold).summary.total ∧
    (compareResults current baseline threshold).summary.total =
      (compareResults current baseline threshold).prompts.length ∧
    (compareResults current baseline threshold).prompts.length = current.length ∧
    ((compareResults current baseline threshold).passed = true ↔
      ∀ p ∈ (compareResults current baseline threshold).prompts, p.regressed = false) := by
  refine ⟨?_, rfl, ?_, ?_⟩
  · simp only [compareResults]
    exact class_partition threshold _
  · simp [compareResults]
  · simp only [compareResults, beq_iff_eq, List.length_eq_zero, List.filter_eq_nil_iff]
    constructor
    · intro hnone p hp
      cases hxx : p.regressed with
      | false => rfl
      | true =>
        exfalso
        obtain ⟨nr, hnr, rfl⟩ := List.mem_map.mp hp
        have hcl : promptClass threshold
            (comparePrompt baseline.entries threshold nr.1 nr.2) = PromptClass.asRegressed :=
          (promptClass_regressed_iff threshold _).mpr
            ⟨comparePrompt_regressed_not_new _ _ _ _ hxx, hxx⟩
        exact hnone _ hp (by simp [hcl])
    · intro hall p hp
      simp only [decide_eq_true_eq]
      intro hcl
      have hpair := (promptClass_regressed_iff threshold p).mp hcl
      rw [hall p hp] at hpair
      exact Bool.false_ne_true hpair.2

/-- Claim C10: under the data-model conventions (scores in [0,1], positive
weights), every full or quick evaluation returns an overallScore in [0,1]
(0 when no scores were produced), and comparison deltas built from such
overall scores stay within [−1,1] (the delta of a new prompt being exactly 0). -/
theorem overallScore_unit_interval_and_delta_bounded (r : EvalRunner) (input : EvalInput) :
    (∀ res, r.evaluate input = Except.ok res →
      (∀ s ∈ res.scores, 0 ≤ s.score ∧ s.score ≤ 1) →
      (∀ c ∈ r.getCriteria input.contentType, 0 < c.weight) →
      (0 ≤ res.overallScore ∧ res.overallScore ≤ 1) ∧
        (res.scores = [] → res.overallScore = 0)) ∧
    ((∀ s ∈ (r.quickCheck input).scores, 0 ≤ s.score ∧ s.score ≤ 1) →
      (∀ c ∈ r.getCriteria input.contentType, 0 < c.weight) →
      (0 ≤ (r.quickCheck input).overallScore ∧ (r.quickCheck input).overallScore ≤ 1) ∧
        ((r.quickCheck input).scores = [] → (r.quickCheck input).overallScore = 0)) ∧
    (∀ (entries : List BaselineEntry) (θ : ℚ) (nm : String) (result : EvalResult)
        (base : BaselineEntry),
      baselineMapGet entries nm = some base →
      0 ≤ result.overallScore → result.overallScore ≤ 1 →
      0 ≤ base.overallScore → base.overallScore ≤ 1 →
      -1 ≤ (comparePrompt entries θ nm result).delta ∧
        (comparePrompt entries θ nm result).delta ≤ 1) ∧
    (∀ (entries : List BaselineEntry) (θ : ℚ) (nm : String) (result : EvalResult),
      baselineMapGet entries nm = none → (comparePrompt entries θ nm result).delta = 0) := by
  refine ⟨?_, ?_, ?_, ?_⟩
  · intro res h hs hw
    obtain ⟨ls, _, rfl⟩ := evaluate_ok_exists r input res h
    refine ⟨buildResult_overall_bounds _ _ _ hs hw, ?_⟩
    intro hempty
    rw [buildResult_scores] at hempty
    rw [hempty]
    exact buildResult_empty_overall _ _
  · intro hs hw
    have hw2 : ∀ c ∈ (r.getCriteria input.contentType).filter
        (fun c => c.method == EvalMethod.deterministic), 0 < c.weight :=
      fun c hc => hw c (List.mem_of_mem_filter hc)
    simp only [EvalRunner.quickCheck] at hs ⊢
    refine ⟨buildResult_overall_bounds _ _ _ hs hw2, ?_⟩
    intro hempty
    rw [buildResult_scores] at hempty
    rw [hempty]
    exact buildResult_empty_overall _ _
  · intro entries θ nm result base hb h0 h1 h2 h3
    have hdelta : (comparePrompt entries θ nm result).delta =
        result.overallScore - base.overallScore := by
      simp [comparePrompt, hb]
    rw [hdelta]
    constructor <;> linarith
  · intro entries θ nm result h
    simp [comparePrompt, h]

/-- Witness for C10: the overall score of the concrete sample evaluation lies in
[0,1]; hypotheses checked on the concrete scores and weights. -/
theorem overallScore_unit_interval_and_delta_bounded_witness :
    0 ≤ sampleFullRes.overallScore ∧ sampleFullRes.overallScore ≤ 1 :=
  ((overallScore_unit_interval_and_delta_bounded sampleRunnerJ sampleInput).1
    sampleFullRes sampleFullRes_ok sample_scores_bounds sample_weights_pos).1

end SenseiEval
